import Mathlib

/-!
Verification development for the prisma-playground query pipeline.

The embedding below translates, from the repository source:
  * the static schema descriptor `SCHEMA_MAPPING` and the SQL query
    builders (`buildSelectQuery`, `buildInsertQuery`, `buildUpdateQuery`,
    `buildDeleteQuery`) of the virtual Prisma client,
  * the model operations (`findUnique`, `findFirst`, `delete`,
    `updateMany`, `count`, `aggregate`) together with a relational
    denotation of executing the compiled SQL on an in-memory table,
  * the active-statement locator and the payload evaluator of the
    query API route.

JavaScript objects are embedded as ordered association lists of
string/value pairs (JS object literals preserve insertion order, which
the builders rely on for parameter ordering).  Machine details that the
claims do not touch (connection handling, the `pg` driver, timestamps
beyond an abstract `now` instant) are abstracted: `new Date()` becomes
an explicit `now : Nat` argument threaded to the builders.
-/

/-- Decidable equality for `Except`, so concrete builder outputs can be
checked with `decide`. -/
instance exceptDecEq {ε α : Type} [DecidableEq ε] [DecidableEq α] :
    DecidableEq (Except ε α) := fun x y =>
  match x, y with
  | .error a, .error b =>
      if h : a = b then .isTrue (congrArg Except.error h)
      else .isFalse (fun hc => h (Except.error.inj hc))
  | .ok a, .ok b =>
      if h : a = b then .isTrue (congrArg Except.ok h)
      else .isFalse (fun hc => h (Except.ok.inj hc))
  | .error _, .ok _ => .isFalse (fun hc => Except.noConfusion hc)
  | .ok _, .error _ => .isFalse (fun hc => Except.noConfusion hc)

/-- Scalar runtime values that can appear as where/data entries, SQL
parameters and row cells.  `date t` stands for a JS `Date` with abstract
timestamp `t` (produced by `new Date()` in the builders). -/
inductive Value where
  | str (s : String)
  | num (n : Int)
  | bool (b : Bool)
  | null
  | date (t : Nat)
deriving DecidableEq, Repr

/-- A JS object (or a table row) as an ordered association list:
insertion order is observable through `Object.keys`/`Object.entries`. -/
abbrev Obj := List (String × Value)

/-- A database row, keyed by physical column names. -/
abbrev Row := List (String × Value)

/-- JS truthiness of a scalar value. -/
def truthy : Value → Bool
  | .str s => s ≠ ""
  | .num n => n ≠ 0
  | .bool b => b
  | .null => false
  | .date _ => true

/-- JS truthiness of a possibly absent property (`undefined` is falsy). -/
def truthyOpt : Option Value → Bool
  | some v => truthy v
  | none => false

/-- First-match property lookup, `o[k]`. -/
def objGet (o : Obj) (k : String) : Option Value :=
  (o.find? (fun p => p.1 = k)).map (·.2)

/-- JS property assignment `o[k] = v`: updates the existing entry in
place (keeping its position) or appends a new entry at the end. -/
def objSet (o : Obj) (k : String) (v : Value) : Obj :=
  if o.any (fun p => p.1 = k) then
    o.map (fun p => if p.1 = k then (k, v) else p)
  else
    o ++ [(k, v)]

/-- JS `String(value)` coercion, used for order-by directions. -/
def jsToString : Value → String
  | .str s => s
  | .num n => toString n
  | .bool true => "true"
  | .bool false => "false"
  | .null => "null"
  | .date t => "Date(" ++ toString t ++ ")"

/-- One model of `SCHEMA_MAPPING`: physical table plus the ordered
logical→physical field map.  The `relations` records of the source are
not consulted by any query builder and are omitted. -/
structure ModelSchema where
  table : String
  fields : List (String × String)
deriving DecidableEq, Repr

def userSchema : ModelSchema :=
  { table := "users"
    fields := [("id", "id"), ("email", "email"), ("name", "name"), ("bio", "bio"),
               ("createdAt", "createdAt"), ("updatedAt", "updatedAt")] }

def profileSchema : ModelSchema :=
  { table := "profiles"
    fields := [("id", "id"), ("avatar", "avatar"), ("website", "website"),
               ("twitter", "twitter"), ("userId", "userId")] }

def postSchema : ModelSchema :=
  { table := "posts"
    fields := [("id", "id"), ("title", "title"), ("content", "content"),
               ("published", "published"), ("views", "views"), ("authorId", "authorId"),
               ("categoryId", "categoryId"), ("createdAt", "createdAt"),
               ("updatedAt", "updatedAt")] }

def categorySchema : ModelSchema :=
  { table := "categories"
    fields := [("id", "id"), ("name", "name"), ("description", "description"),
               ("color", "color")] }

def tagSchema : ModelSchema :=
  { table := "tags", fields := [("id", "id"), ("name", "name")] }

def postTagSchema : ModelSchema :=
  { table := "post_tags", fields := [("postId", "postId"), ("tagId", "tagId")] }

def commentSchema : ModelSchema :=
  { table := "comments"
    fields := [("id", "id"), ("content", "content"), ("authorId", "authorId"),
               ("postId", "postId"), ("parentId", "parentId"), ("createdAt", "createdAt")] }

/-- The static `SCHEMA_MAPPING` constant. -/
def SCHEMA_MAPPING : List (String × ModelSchema) :=
  [("user", userSchema), ("profile", profileSchema), ("post", postSchema),
   ("category", categorySchema), ("tag", tagSchema), ("postTag", postTagSchema),
   ("comment", commentSchema)]

/-- `SCHEMA_MAPPING[modelName]`. -/
def lookupModel (m : String) : Option ModelSchema :=
  (SCHEMA_MAPPING.find? (fun p => p.1 = m)).map (·.2)

/-- `schema.fields[f]`: physical column for a logical field, if mapped. -/
def lookupField (schema : ModelSchema) (f : String) : Option String :=
  (schema.fields.find? (fun p => p.1 = f)).map (·.2)

/-- JS `schema.fields[field] || field`: the physical column, falling
back to the raw logical name when the lookup is undefined (or the
mapped name is the falsy empty string). -/
def dbFieldOf (schema : ModelSchema) (f : String) : String :=
  match lookupField schema f with
  | some s => if s = "" then f else s
  | none => f

/-- Truthiness of `schema.fields[key]`, the filter used on insert and
update assignment keys. -/
def fieldTruthy (schema : ModelSchema) (k : String) : Bool :=
  match lookupField schema k with
  | some s => s ≠ ""
  | none => false

/-- A compiled SQL statement with its positional parameters. -/
structure CompiledQuery where
  query : String
  values : List Value
deriving DecidableEq, Repr

/-- Structured arguments of a model call (the evaluated payload):
`whereArg`/`data` are flat JS objects, `orderBy` an array of order
specs (the source normalizes a single spec to a one-element array),
`take`/`skip` numbers.  Absent properties are `none`. -/
structure QueryArgs where
  whereArg : Option Obj := none
  orderBy : Option (List Obj) := none
  take : Option Int := none
  skip : Option Int := none
  data : Option Obj := none
deriving DecidableEq, Repr

/-- The `whereConditions` map of the builders: one `"col" = $i` clause
per where entry, numbering placeholders consecutively from `i`. -/
def whereConditions (schema : ModelSchema) : Obj → Nat → List String
  | [], _ => []
  | (f, _) :: rest, i =>
      ("\"" ++ dbFieldOf schema f ++ "\" = $" ++ toString i)
        :: whereConditions schema rest (i + 1)

/-- The values pushed while building where conditions, in entry order. -/
def whereValues : Option Obj → List Value
  | none => []
  | some w => w.map Prod.snd

/-- WHERE fragment of `buildSelectQuery`: only appended when at least
one condition was produced (`whereConditions.length > 0`). -/
def selectWherePart (schema : ModelSchema) : Option Obj → String
  | none => ""
  | some w =>
      let conds := whereConditions schema w 1
      if conds.length > 0 then " WHERE " ++ String.intercalate " AND " conds else ""

/-- WHERE fragment of `buildUpdateQuery`/`buildDeleteQuery`/`count`:
appended whenever `args.where` is present, with no length guard. -/
def wherePartRaw (schema : ModelSchema) (w : Option Obj) (startIdx : Nat) : String :=
  match w with
  | none => ""
  | some wf => " WHERE " ++ String.intercalate " AND " (whereConditions schema wf startIdx)

/-- ORDER BY clauses.  `Object.entries(order)` destructuring of an
empty spec throws a TypeError in the source, embedded as an error. -/
def orderClauses (schema : ModelSchema) : List Obj → Except String (List String)
  | [] => .ok []
  | spec :: rest =>
      match spec with
      | [] => .error "TypeError: destructuring an empty orderBy spec"
      | (f, d) :: _ =>
          match orderClauses schema rest with
          | .error e => .error e
          | .ok tail =>
              .ok (("\"" ++ dbFieldOf schema f ++ "\" " ++ (jsToString d).toUpper) :: tail)

/-- ORDER BY fragment of `buildSelectQuery`. -/
def selectOrderPart (schema : ModelSchema) : Option (List Obj) → Except String String
  | none => .ok ""
  | some specs =>
      match orderClauses schema specs with
      | .error e => .error e
      | .ok cls => .ok (" ORDER BY " ++ String.intercalate ", " cls)

/-- `if (args.take) query += ` LIMIT ...`` (JS truthiness: 0 is falsy). -/
def limitPart : Option Int → String
  | none => ""
  | some t => if t ≠ 0 then " LIMIT " ++ toString t else ""

/-- `if (args.skip) query += ` OFFSET ...``. -/
def offsetPart : Option Int → String
  | none => ""
  | some k => if k ≠ 0 then " OFFSET " ++ toString k else ""

/-- `buildSelectQuery(modelName, args)` from the virtual client. -/
def buildSelectQuery (modelName : String) (args : QueryArgs) : Except String CompiledQuery :=
  match lookupModel modelName with
  | none => .error ("Modelo " ++ modelName ++ " não encontrado")
  | some schema =>
      match selectOrderPart schema args.orderBy with
      | .error e => .error e
      | .ok orderPart =>
          .ok { query := "SELECT * FROM \"" ++ schema.table ++ "\""
                          ++ selectWherePart schema args.whereArg
                          ++ orderPart
                          ++ limitPart args.take
                          ++ offsetPart args.skip
                values := whereValues args.whereArg }

/-- `Object.keys(enhancedData).filter(key => schema.fields[key])`: the
keys of an enhanced data object that survive the field-map filter, in
encounter order.  Both `buildInsertQuery` (`fields`) and
`buildUpdateQuery` (`setFields`) compute exactly this list. -/
def mappedKeys (schema : ModelSchema) (e : Obj) : List String :=
  (e.map Prod.fst).filter (fun k => fieldTruthy schema k)

/-- Physical column of a filtered key, `schema.fields[field]`; after the
filter the lookup is always a defined non-empty string, and a JS
template literal would otherwise interpolate the text `undefined`. -/
def mappedColumn (schema : ModelSchema) (f : String) : String :=
  (lookupField schema f).getD "undefined"

/-- `enhancedData[field]` for a key of the object; `Value.null` is an
unreachable default (the key always comes from `Object.keys`). -/
def mappedValue (e : Obj) (f : String) : Value :=
  (objGet e f).getD .null

/-- The `SET` clauses of `buildUpdateQuery`: one `"col" = $i` clause per
filtered key, numbered consecutively from `i`. -/
def setClauses (schema : ModelSchema) : List String → Nat → List String
  | [], _ => []
  | f :: rest, i =>
      ("\"" ++ mappedColumn schema f ++ "\" = $" ++ toString i)
        :: setClauses schema rest (i + 1)

/-- `$1`, ..., `$n` placeholders used by `buildInsertQuery`. -/
def placeholderList (i : Nat) : Nat → List String
  | 0 => []
  | n + 1 => ("$" ++ toString i) :: placeholderList (i + 1) n

/-- Timestamp auto-population of `buildInsertQuery`: add `createdAt`
then `updatedAt` when the field map declares them and the caller value
is absent or falsy. -/
def enhanceInsertData (schema : ModelSchema) (data : Obj) (now : Nat) : Obj :=
  let e := data
  let e :=
    if (schema.fields.any (fun p => p.1 = "createdAt")) && !(truthyOpt (objGet e "createdAt"))
    then objSet e "createdAt" (.date now) else e
  if (schema.fields.any (fun p => p.1 = "updatedAt")) && !(truthyOpt (objGet e "updatedAt"))
  then objSet e "updatedAt" (.date now) else e

/-- Timestamp auto-population of `buildUpdateQuery`: only `updatedAt`. -/
def enhanceUpdateData (schema : ModelSchema) (data : Obj) (now : Nat) : Obj :=
  if (schema.fields.any (fun p => p.1 = "updatedAt")) && !(truthyOpt (objGet data "updatedAt"))
  then objSet data "updatedAt" (.date now) else data

/-- `buildInsertQuery(modelName, data)` (the query text keeps the
template literal's newlines and indentation). -/
def buildInsertQuery (modelName : String) (data : Obj) (now : Nat) :
    Except String CompiledQuery :=
  match lookupModel modelName with
  | none => .error ("Modelo " ++ modelName ++ " não encontrado")
  | some schema =>
      let e := enhanceInsertData schema data now
      let fields := mappedKeys schema e
      let dbFields := fields.map (fun f => "\"" ++ mappedColumn schema f ++ "\"")
      .ok { query := "\n      INSERT INTO \"" ++ schema.table ++ "\" ("
                      ++ String.intercalate ", " dbFields
                      ++ ")\n      VALUES ("
                      ++ String.intercalate ", " (placeholderList 1 fields.length)
                      ++ ")\n      RETURNING *\n    "
            values := fields.map (mappedValue e) }

/-- The `SET` parameter values of `buildUpdateQuery`, in key order. -/
def setValuesOf (schema : ModelSchema) (e : Obj) : List Value :=
  (mappedKeys schema e).map (mappedValue e)

/-- `buildUpdateQuery(modelName, args)`.  Unlike the select builder,
the WHERE fragment has no length guard: a present `where` always
appends ` WHERE ...`. -/
def buildUpdateQuery (modelName : String) (args : QueryArgs) (now : Nat) :
    Except String CompiledQuery :=
  match lookupModel modelName with
  | none => .error ("Modelo " ++ modelName ++ " não encontrado")
  | some schema =>
      let e := enhanceUpdateData schema (args.data.getD []) now
      let sf := mappedKeys schema e
      let setVals := setValuesOf schema e
      .ok { query := "UPDATE \"" ++ schema.table ++ "\" SET "
                      ++ String.intercalate ", " (setClauses schema sf 1)
                      ++ wherePartRaw schema args.whereArg (setVals.length + 1)
                      ++ " RETURNING *"
            values := setVals ++ whereValues args.whereArg }

/-- `buildDeleteQuery(modelName, args)`. -/
def buildDeleteQuery (modelName : String) (args : QueryArgs) :
    Except String CompiledQuery :=
  match lookupModel modelName with
  | none => .error ("Modelo " ++ modelName ++ " não encontrado")
  | some schema =>
      .ok { query := "DELETE FROM \"" ++ schema.table ++ "\""
                      ++ wherePartRaw schema args.whereArg 1
            values := whereValues args.whereArg }

/-!  Relational denotation of executing a compiled statement on an
in-memory table.  A `"col" = $i` condition is SQL equality: comparing
against `NULL` never matches. -/

/-- Cell lookup in a row by physical column name. -/
def rowGet (r : Row) (c : String) : Option Value :=
  (r.find? (fun p => p.1 = c)).map (·.2)

/-- SQL equality of a parameter against a cell (`= NULL` is never true,
and a `NULL` cell matches no non-null parameter). -/
def sqlEqMatch (v : Value) (cell : Option Value) : Bool :=
  match v with
  | .null => false
  | _ => cell = some v

/-- A row satisfies the conjunction of equality conditions compiled
from a where object. -/
def matchesWhere (schema : ModelSchema) (w : Obj) (r : Row) : Bool :=
  w.all (fun p => sqlEqMatch p.2 (rowGet r (dbFieldOf schema p.1)))

/-- Denotation of the compiled SELECT on a table: filter by the where
conditions, then apply OFFSET and LIMIT (with the builders' JS
truthiness guards).  ORDER BY only permutes its input and is kept as
the base order here; no claim below depends on row order beyond
emptiness. -/
def execSelect (schema : ModelSchema) (args : QueryArgs) (db : List Row) : List Row :=
  let filtered :=
    match args.whereArg with
    | none => db
    | some w => db.filter (matchesWhere schema w)
  let afterSkip :=
    match args.skip with
    | none => filtered
    | some k => if k ≠ 0 then filtered.drop k.toNat else filtered
  match args.take with
  | none => afterSkip
  | some t => if t ≠ 0 then afterSkip.take t.toNat else afterSkip

/-- `findUnique(args)`: compile `buildSelectQuery(model, {...args,
take: 1})`, run it, and return `rows[0] || null`. -/
def findUniqueOp (modelName : String) (db : List Row) (args : QueryArgs) :
    Except String (Option Row) :=
  match buildSelectQuery modelName { args with take := some 1 } with
  | .error e => .error e
  | .ok _cq =>
      match lookupModel modelName with
      | none => .error ("Modelo " ++ modelName ++ " não encontrado")
      | some schema => .ok (execSelect schema { args with take := some 1 } db).head?

/-- `findFirst(args)`: byte-for-byte the same compile-and-run sequence
as `findUnique`. -/
def findFirstOp (modelName : String) (db : List Row) (args : QueryArgs) :
    Except String (Option Row) :=
  match buildSelectQuery modelName { args with take := some 1 } with
  | .error e => .error e
  | .ok _cq =>
      match lookupModel modelName with
      | none => .error ("Modelo " ++ modelName ++ " não encontrado")
      | some schema => .ok (execSelect schema { args with take := some 1 } db).head?

/-- Denotation of the compiled DELETE: remove the matching rows (all
rows when no where clause was compiled). -/
def execDelete (schema : ModelSchema) (w : Option Obj) (db : List Row) : List Row :=
  match w with
  | none => []
  | some wf => db.filter (fun r => !(matchesWhere schema wf r))

/-- `delete(args)`: look the record up with
`this.findUnique({ where: args.where })`; throw
`Registro não encontrado para exclusão` when absent (issuing no
DELETE); otherwise run the compiled DELETE and return the pre-fetched
record.  The pair is (outcome, resulting table). -/
def deleteOp (modelName : String) (db : List Row) (args : QueryArgs) :
    Except String Row × List Row :=
  match findUniqueOp modelName db { whereArg := args.whereArg } with
  | .error e => (.error e, db)
  | .ok none => (.error "Registro não encontrado para exclusão", db)
  | .ok (some existing) =>
      match buildDeleteQuery modelName args, lookupModel modelName with
      | .ok _cq, some schema => (.ok existing, execDelete schema args.whereArg db)
      | .error e, _ => (.error e, db)
      | .ok _, none => (.error ("Modelo " ++ modelName ++ " não encontrado"), db)

/-- Applying the compiled SET assignments to one row. -/
def applyAssignments (schema : ModelSchema) (e : Obj) (r : Row) : Row :=
  (mappedKeys schema e).foldl
    (fun acc f => objSet acc (mappedColumn schema f) (mappedValue e f)) r

/-- `updateMany(args)`: compile the UPDATE (with ` RETURNING *`
stripped before execution) and return the affected-row count together
with the updated table.  An empty SET clause is invalid SQL and the
database engine rejects it. -/
def updateManyOp (modelName : String) (db : List Row) (args : QueryArgs) (now : Nat) :
    Except String (Nat × List Row) :=
  match buildUpdateQuery modelName args now with
  | .error e => .error e
  | .ok _cq =>
      match lookupModel modelName with
      | none => .error ("Modelo " ++ modelName ++ " não encontrado")
      | some schema =>
          let e := enhanceUpdateData schema (args.data.getD []) now
          if mappedKeys schema e = [] then
            .error "syntax error: empty SET clause"
          else
            match args.whereArg with
            | none => .ok (db.length, db.map (applyAssignments schema e))
            | some w =>
                .ok ((db.filter (matchesWhere schema w)).length,
                     db.map (fun r => if matchesWhere schema w r
                                      then applyAssignments schema e r else r))

/-- The number of rows a where filter selects;
`parseInt(result.rows[0].count)` of the compiled COUNT. -/
def countWhere (schema : ModelSchema) (w : Option Obj) (db : List Row) : Nat :=
  match w with
  | none => db.length
  | some wf => (db.filter (matchesWhere schema wf)).length

/-- `count(args)`: compile `SELECT COUNT(*) as count FROM ...` (this
method reads `SCHEMA_MAPPING[modelName]` without the existence check,
so a missing model is a TypeError) and return the compiled statement
with the parsed integer it produces. -/
def countOp (modelName : String) (db : List Row) (args : QueryArgs) :
    Except String (CompiledQuery × Nat) :=
  match lookupModel modelName with
  | none => .error "TypeError: Cannot read properties of undefined"
  | some schema =>
      .ok ({ query := "SELECT COUNT(*) as count FROM \"" ++ schema.table ++ "\""
                       ++ wherePartRaw schema args.whereArg 1
             values := whereValues args.whereArg },
           countWhere schema args.whereArg db)

/-!  The payload evaluator of the query API route.  The route cleans
the extracted argument text (trailing comma, comments) and hands it to
JavaScript `eval`.  The cleaned text is embedded here as an abstract
syntax tree `JsExpr` of the expression fragment relevant to payloads,
and `jsEval` is `eval`'s semantics on that fragment.  Because the
route uses *direct* `eval`, the evaluated text sees the enclosing
scope: a bare identifier resolves to the value of the equally-named
binding visible at the call site (locals of `parseUserQuery` such as
`payload`, `model`, `action`, `cleanPayload`, `evalContext`, plus
globals) and only a name bound nowhere throws a ReferenceError.
`jsEval` therefore takes the enclosing scope as an explicit
environment of name/value bindings. -/

/-- A structured runtime value produced by evaluating a payload.
`undef` is JS `undefined` (distinct from `null`), e.g. the value of
the route's `payload` local, declared `let payload = undefined` and
already initialized when `eval` runs. -/
inductive JsValue where
  | str (s : String)
  | num (n : Int)
  | bool (b : Bool)
  | null
  | undef
  | obj (fields : List (String × JsValue))
  | arr (elems : List JsValue)

/-- Expressions that can occur in a pasted payload text: the literal
grammar (objects, arrays, strings, numbers, booleans, null) plus
non-literal code forms `eval` also accepts — binary `+`, an
immediately-invoked function `(() => body)()`, and a bare identifier
reference. -/
inductive JsExpr where
  | str (s : String)
  | num (n : Int)
  | bool (b : Bool)
  | null
  | obj (fields : List (String × JsExpr))
  | arr (elems : List JsExpr)
  | add (a b : JsExpr)
  | iifeCall (body : JsExpr)
  | ident (name : String)

/-- The enclosing scope visible to a direct `eval`: ordered
name/value bindings. -/
abbrev EvalScope := List (String × JsValue)

/-- Resolution of a bare identifier against the enclosing scope. -/
def scopeLookup (env : EvalScope) (name : String) : Option JsValue :=
  (env.find? (fun p => p.1 = name)).map (·.2)

/-- The minimal core of the scope enclosing the route's `eval` call:
the `payload` local (`let payload = undefined`) is in scope and
already initialized.  The real scope extends this with the other
locals and globals; closed statements below about unbound names use
identifiers (`q`, `z`) bound neither here nor at the actual site. -/
def routeScopeCore : EvalScope := [("payload", .undef)]

mutual

/-- `eval` on a payload expression under the enclosing scope:
literals evaluate componentwise, `+` computes on numbers, an IIFE
runs its body in the same scope (a closure), and a bare identifier
resolves through the scope — only a name bound nowhere throws a
ReferenceError (`none`).  Nothing is rejected for merely being code. -/
def jsEval (env : EvalScope) : JsExpr → Option JsValue
  | .str s => some (.str s)
  | .num n => some (.num n)
  | .bool b => some (.bool b)
  | .null => some .null
  | .obj fs =>
      match jsEvalFields env fs with
      | some vs => some (.obj vs)
      | none => none
  | .arr es =>
      match jsEvalElems env es with
      | some vs => some (.arr vs)
      | none => none
  | .add a b =>
      match jsEval env a, jsEval env b with
      | some (.num x), some (.num y) => some (.num (x + y))
      | _, _ => none
  | .iifeCall body => jsEval env body
  | .ident name => scopeLookup env name

def jsEvalFields (env : EvalScope) : List (String × JsExpr) → Option (List (String × JsValue))
  | [] => some []
  | (k, e) :: rest =>
      match jsEval env e, jsEvalFields env rest with
      | some v, some vs => some ((k, v) :: vs)
      | _, _ => none

def jsEvalElems (env : EvalScope) : List JsExpr → Option (List JsValue)
  | [] => some []
  | e :: rest =>
      match jsEval env e, jsEvalElems env rest with
      | some v, some vs => some (v :: vs)
      | _, _ => none

end

mutual

/-- Modelled from the spec: the restricted literal-expression grammar
of §4.3/§9 — "objects, arrays, strings, numbers, booleans, null only";
any function call, identifier or other code form is outside the
grammar.  This is the comparison definition for the refinement claim
about the payload evaluator; the source implements `jsEval`, not this. -/
def specLiteralValue : JsExpr → Option JsValue
  | .str s => some (.str s)
  | .num n => some (.num n)
  | .bool b => some (.bool b)
  | .null => some .null
  | .obj fs =>
      match specLiteralFields fs with
      | some vs => some (.obj vs)
      | none => none
  | .arr es =>
      match specLiteralElems es with
      | some vs => some (.arr vs)
      | none => none
  | .add _ _ => none
  | .iifeCall _ => none
  | .ident _ => none

def specLiteralFields : List (String × JsExpr) → Option (List (String × JsValue))
  | [] => some []
  | (k, e) :: rest =>
      match specLiteralValue e, specLiteralFields rest with
      | some v, some vs => some ((k, v) :: vs)
      | _, _ => none

def specLiteralElems : List JsExpr → Option (List JsValue)
  | [] => some []
  | e :: rest =>
      match specLiteralValue e, specLiteralElems rest with
      | some v, some vs => some (v :: vs)
      | _, _ => none

end

/-- The placeholder record the route substitutes for non-read
actions when `eval` fails. -/
def placeholderRecord : JsValue :=
  .obj [("data", .obj [("name", .str "Teste"), ("email", .str "teste@exemplo.com")])]

/-- The eval-failure fallback of the route: an empty object for
`findMany`/`findFirst`/`count`, the placeholder record for every other
action (the source's `else` branch). -/
def fallbackPayload (action : String) : JsValue :=
  if action = "findMany" ∨ action = "findFirst" ∨ action = "count"
  then .obj []
  else placeholderRecord

/-- The route's payload processing: an empty argument text leaves the
payload `undefined` (`none`); otherwise `eval` the cleaned text under
the enclosing scope and, only when evaluation throws, substitute the
action-specific fallback.  (A successful evaluation — including one
that merely resolves an in-scope name like `payload` to `undefined` —
never triggers the fallback.) -/
def evaluatePayload (env : EvalScope) (payloadText : Option JsExpr) (action : String) :
    Option JsValue :=
  match payloadText with
  | none => none
  | some e =>
      match jsEval env e with
      | some v => some v
      | none => some (fallbackPayload action)

/-- `aggregate(args)`: delegate to `count` (passing `{ where }` when a
where is present, `{}` otherwise) and wrap the integer as
`{ _count: { _all: n } }`. -/
def aggregateOp (modelName : String) (db : List Row) (args : QueryArgs) :
    Except String (CompiledQuery × JsValue) :=
  let countArgs : QueryArgs :=
    match args.whereArg with
    | some w => { whereArg := some w }
    | none => {}
  match countOp modelName db countArgs with
  | .error e => .error e
  | .ok (cq, n) =>
      .ok (cq, .obj [("_count", .obj [("_all", .num (Int.ofNat n))])])

/-!  The active-statement locator of the query API route.  The route
splits the pasted source into lines and scans them top to bottom for an
uncommented `console.log(<identifier>)` call, breaking at the first
hit.  JS string primitives are embedded over `List Char` so that every
scan is structurally recursive. -/

/-- `\w` of the locator's regex. -/
def isWordChar (c : Char) : Bool := c.isAlphanum || c = '_'

/-- Prefix test on character lists. -/
def listStartsWith : List Char → List Char → Bool
  | _, [] => true
  | [], _ :: _ => false
  | c :: cs, p :: ps => c = p && listStartsWith cs ps

/-- `includes(pat)` on character lists. -/
def listContainsSub (s pat : List Char) : Bool :=
  match s with
  | [] => listStartsWith [] pat
  | _ :: rest => listStartsWith s pat || listContainsSub rest pat

/-- Leading-whitespace removal. -/
def dropLeadingWs : List Char → List Char
  | [] => []
  | c :: cs => if c.isWhitespace then dropLeadingWs cs else c :: cs

/-- `line.trim()`. -/
def trimChars (s : List Char) : List Char :=
  ((dropLeadingWs s.reverse).reverse |> dropLeadingWs)

/-- The literal head of the locator's regex `console\.log\((\w+)\)`. -/
def logCallPat : List Char := "console.log(".data

/-- Leftmost match of `console\.log\((\w+)\)`: try each position; at a
position starting with `console.log(`, require one or more word
characters followed by `)`, else keep scanning. -/
def extractLogIdent : List Char → Option String
  | [] => none
  | s@(_ :: rest) =>
      if listStartsWith s logCallPat then
        let after := s.drop logCallPat.length
        let w := after.takeWhile isWordChar
        if w ≠ [] && listStartsWith (after.drop w.length) [')'] then
          some (String.mk w)
        else
          extractLogIdent rest
      else
        extractLogIdent rest

/-- One line of the first scan of `parseUserQuery`: trim, skip `//`
comment lines, gate on `includes('console.log(') && includes(')')`,
then match the regex. -/
def logOfBinding (line : String) : Option String :=
  let t := trimChars line.data
  if !(listStartsWith t ['/', '/']) && listContainsSub t logCallPat
      && listContainsSub t [')'] then
    extractLogIdent t
  else
    none

/-- The first scan itself: top-to-bottom, breaking at the first line
whose `console.log(<identifier>)` matches. -/
def findLogBinding : List String → Option String
  | [] => none
  | l :: ls =>
      match logOfBinding l with
      | some v => some v
      | none => findLogBinding ls

/-!  Helper lemmas shared by the claim theorems. -/

theorem str_append_empty (s : String) : s ++ "" = s := by
  cases s
  show String.mk _ = String.mk _
  simp [String.append]

theorem whereConditions_length (schema : ModelSchema) (w : Obj) (i : Nat) :
    (whereConditions schema w i).length = w.length := by
  induction w generalizing i with
  | nil => rfl
  | cons p rest ih => cases p; simp [whereConditions, ih]

theorem setClauses_length (schema : ModelSchema) (fs : List String) (i : Nat) :
    (setClauses schema fs i).length = fs.length := by
  induction fs generalizing i with
  | nil => rfl
  | cons f rest ih => simp [setClauses, ih]

theorem findUnique_none_of_no_match (modelName : String) (schema : ModelSchema)
    (hm : lookupModel modelName = some schema) (db : List Row) (w : Obj)
    (hnm : ∀ r ∈ db, matchesWhere schema w r = false) :
    findUniqueOp modelName db { whereArg := some w } = .ok none := by
  have hfilter : db.filter (matchesWhere schema w) = [] := by
    rw [List.filter_eq_nil_iff]
    intro r hr
    simp [hnm r hr]
  simp [findUniqueOp, buildSelectQuery, hm, selectOrderPart, execSelect, hfilter]

/-- Claim C1 (counterexample): an unknown logical field name in a where
payload is not dropped — `evil` is a key of neither side of the user
field map, yet the compiled SELECT interpolates it verbatim as the SQL
identifier and keeps its value as a parameter, refuting the claimed
invariant for where clauses. -/
theorem claim1_counterexample :
    buildSelectQuery "user" { whereArg := some [("evil", Value.num 1)] } =
      .ok { query := "SELECT * FROM \"users\" WHERE \"" ++ "evil" ++ "\" = $1"
            values := [Value.num 1] }
    ∧ (userSchema.fields.map Prod.fst).contains "evil" = false
    ∧ (userSchema.fields.map Prod.snd).contains "evil" = false :=
  ⟨by decide, by decide, by decide⟩

/-- Claim C1 (amended): identifiers in insert records and update
assignments are drawn only from the field map — every column emitted
for a filtered key is a `fieldMap` value — while a where (or order-by)
field that is not a `fieldMap` key is not dropped: the raw logical name
itself becomes the SQL identifier via `schema.fields[field] || field`. -/
theorem claim1_identifier_sources (schema : ModelSchema) (e : Obj) (f : String) :
    (∀ c ∈ (mappedKeys schema e).map (mappedColumn schema), c ∈ schema.fields.map Prod.snd)
    ∧ ((∀ p ∈ schema.fields, p.1 ≠ f) → dbFieldOf schema f = f) := by
  constructor
  · intro c hc
    rcases List.mem_map.1 hc with ⟨k, hk, rfl⟩
    rcases List.mem_filter.1 hk with ⟨-, htru⟩
    unfold fieldTruthy at htru
    cases hl : lookupField schema k with
    | none => rw [hl] at htru; cases htru
    | some s =>
        rcases Option.map_eq_some'.1 hl with ⟨pair, hfind, hsnd⟩
        have hmem := List.mem_of_find?_eq_some hfind
        refine List.mem_map.2 ⟨pair, hmem, ?_⟩
        simp [mappedColumn, hl, hsnd]
  · intro h
    have hnone : lookupField schema f = none := by
      unfold lookupField
      rw [List.find?_eq_none.2 (by intro p hp; simpa using h p hp)]
      rfl
    simp [dbFieldOf, hnone]

/-- Claim C1 witness: a mapped insert column lands in the field map,
and the unknown name `evil` resolves to itself as identifier. -/
theorem claim1_identifier_sources_witness :
    "name" ∈ userSchema.fields.map Prod.snd ∧ dbFieldOf userSchema "evil" = "evil" :=
  ⟨(claim1_identifier_sources userSchema [("name", Value.str "x")] "evil").1 "name" (by decide),
   (claim1_identifier_sources userSchema [] "evil").2 (by decide)⟩


/-- Claim C2 (counterexample): with two uncommented log-of-binding
lines, the locator returns the binding of the first, not the last —
the scan breaks at its first hit. -/
theorem claim2_counterexample :
    findLogBinding ["console.log(a)", "console.log(b)"] = some "a"
    ∧ ("a" : String) ≠ "b" :=
  ⟨by decide, by decide⟩

/-- Claim C2 (amended): the locator selects the binding named by the
first non-comment log-of-binding line in top-to-bottom order; every
later line is ignored. -/
theorem claim2_first_log_wins (pre : List String) (line : String) (post : List String)
    (v : String) (hpre : ∀ l ∈ pre, logOfBinding l = none)
    (hline : logOfBinding line = some v) :
    findLogBinding (pre ++ line :: post) = some v := by
  induction pre with
  | nil => simp [findLogBinding, hline]
  | cons p ps ih =>
      have hp : logOfBinding p = none := hpre p (by simp)
      have hrest : ∀ l ∈ ps, logOfBinding l = none := fun l hl => hpre l (by simp [hl])
      simpa [findLogBinding, hp] using ih hrest

/-- Claim C2 witness: a commented log line is skipped, the first live
log line wins over the later one. -/
theorem claim2_first_log_wins_witness :
    findLogBinding ["// console.log(x)", "console.log(a)", "console.log(b)"] = some "a" :=
  claim2_first_log_wins ["// console.log(x)"] "console.log(a)" ["console.log(b)"] "a"
    (by decide) (by decide)

/-- Claim C3 (counterexample): the evaluator computes results for
payload texts outside the restricted literal grammar — under the
route's enclosing scope, an immediately invoked function call and an
arithmetic expression both evaluate to computed values, although the
spec grammar rejects them. -/
theorem claim3_counterexample :
    evaluatePayload routeScopeCore (some (.iifeCall (.num 42))) "findMany" = some (.num 42)
    ∧ specLiteralValue (.iifeCall (.num 42)) = none
    ∧ evaluatePayload routeScopeCore (some (.add (.num 2) (.num 3))) "findMany" = some (.num 5)
    ∧ specLiteralValue (.add (.num 2) (.num 3)) = none :=
  ⟨rfl, rfl, rfl, rfl⟩

/-- Claim C3 (amended): the route evaluates the cleaned payload text
with unrestricted direct `eval` rather than a literal-only parser:
literal scalars and object literals evaluate componentwise, `+`
computes on numbers, an IIFE runs its body as code, and a bare
identifier resolves through the enclosing scope (so an in-scope name
such as the route's `payload` local evaluates to its current value);
only a name bound nowhere throws, which routes into the action
fallback. -/
theorem claim3_unrestricted_eval (env : EvalScope) (s : String) (n : Int) (b : Bool)
    (a c : JsExpr) (x y : Int) (fs : List (String × JsExpr)) (vs : List (String × JsValue))
    (body : JsExpr) (bound unbound action : String) (v : JsValue) (e : JsExpr)
    (hax : jsEval env a = some (.num x)) (hcy : jsEval env c = some (.num y))
    (hfs : jsEvalFields env fs = some vs)
    (hbound : scopeLookup env bound = some v)
    (hunbound : scopeLookup env unbound = none)
    (hfail : jsEval env e = none) :
    jsEval env (.str s) = some (.str s)
    ∧ jsEval env (.num n) = some (.num n)
    ∧ jsEval env (.bool b) = some (.bool b)
    ∧ jsEval env .null = some .null
    ∧ jsEval env (.obj fs) = some (.obj vs)
    ∧ jsEval env (.add a c) = some (.num (x + y))
    ∧ jsEval env (.iifeCall body) = jsEval env body
    ∧ jsEval env (.ident bound) = some v
    ∧ jsEval env (.ident unbound) = none
    ∧ evaluatePayload env (some e) action = some (fallbackPayload action) := by
  refine ⟨rfl, rfl, rfl, rfl, ?_, ?_, rfl, ?_, ?_, ?_⟩
  · simp [jsEval, hfs]
  · simp [jsEval, hax, hcy]
  · simp [jsEval, hbound]
  · simp [jsEval, hunbound]
  · simp [evaluatePayload, hfail]

/-- Claim C3 witness: under the route scope, an object literal
evaluates componentwise, code forms compute, the in-scope `payload`
local resolves to `undefined`, and an unbound identifier falls back. -/
theorem claim3_unrestricted_eval_witness :
    jsEval routeScopeCore (.obj [("k", JsExpr.num 7)]) = some (.obj [("k", JsValue.num 7)])
    ∧ jsEval routeScopeCore (.add (.num 2) (.num 3)) = some (.num (2 + 3))
    ∧ jsEval routeScopeCore (.ident "payload") = some .undef
    ∧ evaluatePayload routeScopeCore (some (.ident "z")) "create" =
        some (fallbackPayload "create") := by
  have h := claim3_unrestricted_eval routeScopeCore "" 0 true (.num 2) (.num 3) 2 3
      [("k", JsExpr.num 7)] [("k", JsValue.num 7)] (.num 0) "payload" "z" "create"
      .undef (.ident "z") rfl rfl rfl rfl rfl rfl
  exact ⟨h.2.2.2.2.1, h.2.2.2.2.2.1, h.2.2.2.2.2.2.2.1,
         h.2.2.2.2.2.2.2.2.2⟩

/-- Claim C4 (counterexample): on a non-empty payload text whose
evaluation fails (the identifier `q` is bound neither in the route's
scope nor globally, so direct `eval` throws a ReferenceError),
`findUnique` does not receive the empty filter object — it is not in
the read-only list of the route and receives the placeholder record
instead. -/
theorem claim4_counterexample :
    evaluatePayload routeScopeCore (some (.ident "q")) "findUnique" = some placeholderRecord
    ∧ placeholderRecord ≠ JsValue.obj [] := by
  refine ⟨rfl, ?_⟩
  simp [placeholderRecord]

/-- Claim C4 (amended): when evaluation of a non-empty payload text
fails, the fallback substitutes the empty filter object exactly for
`findMany`, `findFirst` and `count`; every other action — all write
actions, but also `findUnique` — gets the minimal placeholder record. -/
theorem claim4_fallback_policy (env : EvalScope) (e : JsExpr) (action : String)
    (hfail : jsEval env e = none) :
    ((action = "findMany" ∨ action = "findFirst" ∨ action = "count") →
        evaluatePayload env (some e) action = some (.obj []))
    ∧ (¬(action = "findMany" ∨ action = "findFirst" ∨ action = "count") →
        evaluatePayload env (some e) action = some placeholderRecord) := by
  constructor <;> intro h <;> simp [evaluatePayload, hfail, fallbackPayload, h]

/-- Claim C4 witness: the fallback at a read action and at a write
action, for an unbound-identifier payload that fails to evaluate
under the route scope. -/
theorem claim4_fallback_policy_witness :
    evaluatePayload routeScopeCore (some (.ident "q")) "findMany" = some (.obj [])
    ∧ evaluatePayload routeScopeCore (some (.ident "q")) "create" = some placeholderRecord :=
  ⟨(claim4_fallback_policy routeScopeCore (.ident "q") "findMany" rfl).1 (Or.inl rfl),
   (claim4_fallback_policy routeScopeCore (.ident "q") "create" rfl).2 (by decide)⟩

/-- Claim C5 (counterexample): `findUnique` does not require a where
clause — a payload without one compiles and executes successfully,
returning the first row, instead of being rejected. -/
theorem claim5_counterexample :
    findUniqueOp "user" [[("id", Value.num 1)]] {} = .ok (some [("id", Value.num 1)]) := by
  decide

/-- Claim C5 (amended): `findFirst` overrides any caller-supplied
`take` with 1, so its compiled query always carries ` LIMIT 1`, and
`findUnique` is compiled and executed identically to `findFirst`; no
presence check on `where` is performed. -/
theorem claim5_limit_one (modelName : String) (db : List Row) (args : QueryArgs)
    (t : Option Int) (cq : CompiledQuery)
    (hcq : buildSelectQuery modelName { args with take := some 1 } = .ok cq) :
    findUniqueOp modelName db args = findFirstOp modelName db args
    ∧ findFirstOp modelName db { args with take := t } = findFirstOp modelName db args
    ∧ ∃ pre post, cq.query = pre ++ " LIMIT 1" ++ post := by
  refine ⟨rfl, rfl, ?_⟩
  unfold buildSelectQuery at hcq
  cases hm : lookupModel modelName with
  | none => rw [hm] at hcq; cases hcq
  | some schema =>
      rw [hm] at hcq
      dsimp only at hcq
      cases hop : selectOrderPart schema args.orderBy with
      | error e => rw [hop] at hcq; cases hcq
      | ok op =>
          rw [hop] at hcq
          have hq := Except.ok.inj hcq
          refine ⟨"SELECT * FROM \"" ++ schema.table ++ "\""
                    ++ selectWherePart schema args.whereArg ++ op,
                  offsetPart args.skip, ?_⟩
          rw [← hq]
          rfl

/-- Claim C5 witness: on the user model without a where clause, both
lookups agree, a caller-supplied `take` is ignored, and the compiled
query text carries ` LIMIT 1`. -/
theorem claim5_limit_one_witness :
    findUniqueOp "user" [] {} = findFirstOp "user" [] {}
    ∧ findFirstOp "user" [] { take := some 7 } = findFirstOp "user" [] {}
    ∧ ∃ pre post,
        ({ query := "SELECT * FROM \"users\" LIMIT 1"
           values := [] } : CompiledQuery).query = pre ++ " LIMIT 1" ++ post :=
  claim5_limit_one "user" [] {} (some 7)
    { query := "SELECT * FROM \"users\" LIMIT 1", values := [] } (by decide)

/-- Claim C6 (confirmed): `delete` first performs the findUnique-style
lookup on the payload where; if nothing matches it raises the
not-found error and leaves the table untouched (no DELETE issued), and
when a record matches it issues the DELETE and returns the record
fetched before the deletion (the returned row is the lookup's result
on the pre-delete table, not a re-read). -/
theorem claim6_delete_check_then_act (modelName : String) (schema : ModelSchema)
    (hm : lookupModel modelName = some schema) (db : List Row) (w : Obj) :
    ((∀ r ∈ db, matchesWhere schema w r = false) →
        deleteOp modelName db { whereArg := some w } =
          (.error "Registro não encontrado para exclusão", db))
    ∧ (∀ r0, findUniqueOp modelName db { whereArg := some w } = .ok (some r0) →
        deleteOp modelName db { whereArg := some w } =
          (.ok r0, db.filter (fun r => !(matchesWhere schema w r)))) := by
  constructor
  · intro hnm
    have hfu := findUnique_none_of_no_match modelName schema hm db w hnm
    simp [deleteOp, hfu]
  · intro r0 hr0
    simp [deleteOp, hr0, buildDeleteQuery, hm, execDelete]

/-- Claim C6 witness: a miss raises the not-found error with the table
unchanged; a hit returns the pre-fetched row and removes it. -/
theorem claim6_delete_check_then_act_witness :
    deleteOp "user" [[("id", Value.num 1)]] { whereArg := some [("id", Value.num 2)] } =
      (.error "Registro não encontrado para exclusão", [[("id", Value.num 1)]])
    ∧ deleteOp "user" [[("id", Value.num 1)]] { whereArg := some [("id", Value.num 1)] } =
      (.ok [("id", Value.num 1)], []) := by
  constructor
  · exact (claim6_delete_check_then_act "user" userSchema rfl
      [[("id", Value.num 1)]] [("id", Value.num 2)]).1 (by decide)
  · have h := (claim6_delete_check_then_act "user" userSchema rfl
      [[("id", Value.num 1)]] [("id", Value.num 1)]).2 [("id", Value.num 1)] (by decide)
    exact h.trans (by decide)

/-- Claim C7 (counterexample): the aggregate result keys carry
underscores — the shape is `{_count: {_all: N}}`, not
`{count: {all: N}}` as claimed. -/
theorem claim7_counterexample :
    aggregateOp "user" [] {} =
      .ok ({ query := "SELECT COUNT(*) as count FROM \"users\"", values := [] },
           .obj [("_count", .obj [("_all", JsValue.num 0)])])
    ∧ ("_count" : String) ≠ "count" ∧ ("_all" : String) ≠ "all" :=
  ⟨rfl, by decide, by decide⟩

/-- Claim C7 (amended): `aggregate` delegates to `count`, executing the
very same compiled filtered `COUNT(*)` statement, and wraps the
matching-row count as `{_count: {_all: N}}`; no other aggregate
function is computed. -/
theorem claim7_aggregate_count_shape (modelName : String) (schema : ModelSchema)
    (hm : lookupModel modelName = some schema) (db : List Row) (args : QueryArgs) :
    ∃ cq, countOp modelName db { whereArg := args.whereArg } =
        .ok (cq, countWhere schema args.whereArg db)
      ∧ aggregateOp modelName db args =
        .ok (cq, .obj [("_count", .obj
              [("_all", .num (Int.ofNat (countWhere schema args.whereArg db)))])]) := by
  refine ⟨{ query := "SELECT COUNT(*) as count FROM \"" ++ schema.table ++ "\""
                      ++ wherePartRaw schema args.whereArg 1
            values := whereValues args.whereArg }, ?_, ?_⟩
  · simp [countOp, hm]
  · cases hw : args.whereArg with
    | none => simp [aggregateOp, countOp, hm, hw]
    | some w => simp [aggregateOp, countOp, hm, hw]

/-- Claim C7 witness: on a one-row table with no filter, aggregate
returns the count query's result wrapped in the single-count shape. -/
theorem claim7_aggregate_count_shape_witness :
    ∃ cq, countOp "user" [[("id", Value.num 1)]] { whereArg := none } =
        .ok (cq, countWhere userSchema none [[("id", Value.num 1)]])
      ∧ aggregateOp "user" [[("id", Value.num 1)]] {} =
        .ok (cq, .obj [("_count", .obj
              [("_all", .num (Int.ofNat (countWhere userSchema none [[("id", Value.num 1)]])))])]) :=
  claim7_aggregate_count_shape "user" userSchema rfl [[("id", Value.num 1)]] {}

/-- Claim C8 (counterexample): an update payload whose single
assignment key is unknown to the category model compiles a SET clause
with zero placeholders although one assignment key was supplied (the
key is filtered out, leaving the malformed `SET  WHERE` text), so
SET-placeholder count does not equal supplied-key count. -/
theorem claim8_counterexample :
    buildUpdateQuery "category"
        { data := some [("bogus", Value.num 1)], whereArg := some [("id", Value.num 1)] } 0 =
      .ok { query := "UPDATE \"categories\" SET  WHERE \"id\" = $1 RETURNING *"
            values := [Value.num 1] }
    ∧ (setClauses categorySchema
        (mappedKeys categorySchema
          (enhanceUpdateData categorySchema [("bogus", Value.num 1)] 0)) 1).length = 0
    ∧ ([("bogus", Value.num 1)] : Obj).length = 1 :=
  ⟨by decide, by decide, by decide⟩

/-- Claim C8 (amended): WHERE clauses emit exactly one placeholder per
supplied filter key with parameters in encounter order; SET clauses
emit one placeholder per key of the enhanced data object (caller data
plus an auto-added `updatedAt` when the model declares one) that
survives the field-map filter, again in encounter order, and an update
statement's parameter list is those SET values followed by the where
values. -/
theorem claim8_parameter_order (schema : ModelSchema) (w : Obj) (i : Nat)
    (modelName : String) (args : QueryArgs) (now : Nat) (cq cu : CompiledQuery)
    (hsel : buildSelectQuery modelName args = .ok cq)
    (hupd : buildUpdateQuery modelName args now = .ok cu) :
    (whereConditions schema w i).length = w.length
    ∧ cq.values = whereValues args.whereArg
    ∧ (∀ fs, (setClauses schema fs i).length = fs.length)
    ∧ (∀ sch, lookupModel modelName = some sch →
        cu.values =
          setValuesOf sch (enhanceUpdateData sch (args.data.getD []) now)
            ++ whereValues args.whereArg) := by
  refine ⟨whereConditions_length schema w i, ?_, fun fs => setClauses_length schema fs i, ?_⟩
  · unfold buildSelectQuery at hsel
    cases hm : lookupModel modelName with
    | none => rw [hm] at hsel; cases hsel
    | some sch =>
        rw [hm] at hsel
        dsimp only at hsel
        cases hop : selectOrderPart sch args.orderBy with
        | error e => rw [hop] at hsel; cases hsel
        | ok op =>
            rw [hop] at hsel
            rw [← Except.ok.inj hsel]
  · intro sch hm
    unfold buildUpdateQuery at hupd
    rw [hm] at hupd
    dsimp only at hupd
    rw [← Except.ok.inj hupd]

/-- Claim C8 witness: two filter keys give two WHERE placeholders with
parameters in key order; an update on user with one caller key gets
the auto `updatedAt` as second SET entry, parameters SET-then-WHERE. -/
theorem claim8_parameter_order_witness :
    (whereConditions userSchema [("email", Value.str "e"), ("name", Value.str "n")] 1).length = 2
    ∧ ({ query := "SELECT * FROM \"users\" WHERE \"email\" = $1 AND \"name\" = $2"
         values := [Value.str "e", Value.str "n"] } : CompiledQuery).values =
        whereValues (some [("email", Value.str "e"), ("name", Value.str "n")])
    ∧ (setClauses userSchema ["name", "updatedAt"] 1).length = 2
    ∧ ({ query := "UPDATE \"users\" SET \"name\" = $1, \"updatedAt\" = $2 WHERE \"email\" = $3 AND \"name\" = $4 RETURNING *"
         values := [Value.str "x", Value.date 0, Value.str "e", Value.str "n"] } : CompiledQuery).values =
        setValuesOf userSchema (enhanceUpdateData userSchema [("name", Value.str "x")] 0)
          ++ whereValues (some [("email", Value.str "e"), ("name", Value.str "n")]) := by
  have h := claim8_parameter_order userSchema
      [("email", Value.str "e"), ("name", Value.str "n")] 1 "user"
      { whereArg := some [("email", Value.str "e"), ("name", Value.str "n")]
        data := some [("name", Value.str "x")] } 0
      { query := "SELECT * FROM \"users\" WHERE \"email\" = $1 AND \"name\" = $2"
        values := [Value.str "e", Value.str "n"] }
      { query := "UPDATE \"users\" SET \"name\" = $1, \"updatedAt\" = $2 WHERE \"email\" = $3 AND \"name\" = $4 RETURNING *"
        values := [Value.str "x", Value.date 0, Value.str "e", Value.str "n"] }
      (by decide) (by decide)
  exact ⟨h.1, h.2.1, h.2.2.1 ["name", "updatedAt"], h.2.2.2 userSchema rfl⟩

/-- Claim C9 (confirmed): when no row satisfies the where filter, both
`findUnique` and `findFirst` return null (`rows[0] || null`), not an
error. -/
theorem claim9_not_found_returns_null (modelName : String) (schema : ModelSchema)
    (hm : lookupModel modelName = some schema) (db : List Row) (w : Obj)
    (hnm : ∀ r ∈ db, matchesWhere schema w r = false) :
    findUniqueOp modelName db { whereArg := some w } = .ok none
    ∧ findFirstOp modelName db { whereArg := some w } = .ok none := by
  have h := findUnique_none_of_no_match modelName schema hm db w hnm
  exact ⟨h, h⟩

/-- Claim C9 witness: a filter matching nothing in a one-row user
table yields null from both lookups. -/
theorem claim9_not_found_returns_null_witness :
    findUniqueOp "user" [[("id", Value.num 1)]] { whereArg := some [("id", Value.num 2)] } = .ok none
    ∧ findFirstOp "user" [[("id", Value.num 1)]] { whereArg := some [("id", Value.num 2)] } = .ok none :=
  claim9_not_found_returns_null "user" userSchema rfl [[("id", Value.num 1)]]
    [("id", Value.num 2)] (by decide)

/-- Claim C10 (confirmed): `updateMany` with a data payload and no
where clause compiles an UPDATE whose text has no WHERE fragment (the
statement is the SET clause followed directly by RETURNING), applies
the assignments to every row of the table, and reports the table's
full row count.  The side condition requires at least one mapped
assignment key, since an empty SET clause is a SQL syntax error. -/
theorem claim10_update_all_rows (modelName : String) (schema : ModelSchema)
    (hm : lookupModel modelName = some schema) (db : List Row) (data : Obj) (now : Nat)
    (hset : mappedKeys schema (enhanceUpdateData schema data now) ≠ []) :
    updateManyOp modelName db { data := some data } now =
      .ok (db.length, db.map (applyAssignments schema (enhanceUpdateData schema data now)))
    ∧ ∃ cq, buildUpdateQuery modelName { data := some data } now = .ok cq
        ∧ cq.query = "UPDATE \"" ++ schema.table ++ "\" SET "
            ++ String.intercalate ", "
                (setClauses schema (mappedKeys schema (enhanceUpdateData schema data now)) 1)
            ++ " RETURNING *"
        ∧ cq.values = setValuesOf schema (enhanceUpdateData schema data now) := by
  constructor
  · simp [updateManyOp, buildUpdateQuery, hm, hset]
  · refine ⟨{ query := "UPDATE \"" ++ schema.table ++ "\" SET "
                ++ String.intercalate ", "
                    (setClauses schema (mappedKeys schema (enhanceUpdateData schema data now)) 1)
                ++ wherePartRaw schema none
                    ((setValuesOf schema (enhanceUpdateData schema data now)).length + 1)
                ++ " RETURNING *"
              values := setValuesOf schema (enhanceUpdateData schema data now)
                          ++ whereValues none }, ?_, ?_, ?_⟩
    · simp [buildUpdateQuery, hm]
    · show _ ++ wherePartRaw schema none _ ++ " RETURNING *" = _
      rw [show wherePartRaw schema none
            ((setValuesOf schema (enhanceUpdateData schema data now)).length + 1) = ""
          from rfl, str_append_empty]
    · show setValuesOf schema (enhanceUpdateData schema data now) ++ whereValues none = _
      simp [whereValues]

/-- Claim C10 witness: on a one-row user table, the no-where update
touches the single row, rewrites it, and reports count 1. -/
theorem claim10_update_all_rows_witness :
    updateManyOp "user" [[("name", Value.str "old")]]
        { data := some [("name", Value.str "new")] } 0 =
      .ok (1, [[("name", Value.str "new"), ("updatedAt", Value.date 0)]]) := by
  have h := (claim10_update_all_rows "user" userSchema rfl [[("name", Value.str "old")]]
      [("name", Value.str "new")] 0 (by decide)).1
  exact h.trans (by decide)
